import Mathlib

/-!
Verification of the Fabric EVM chaincode state adapter
(`statemanager/statemanager.go`).

The adapter mediates between the burrow EVM and the Hyperledger Fabric
chaincode stub.  This file gives a shallow embedding of the adapter: the
`stateManager` struct becomes the structure `SM`, the chaincode stub becomes
the structure `Ledger` (an outcome oracle together with logs of the issued
calls), and every exported and unexported method of `statemanager.go` becomes
a Lean function that threads the state explicitly.

Modelling conventions:
* a Go byte slice is `List Nat`; `nil` and the empty slice are both `[]`
  (the source only ever compares code and serialized accounts against
  emptiness via `len`/`Size()`, never against `nil` alone except in the
  conjunction `acc.Code != nil && acc.Code.Size() > 0`, which collapses to
  `length > 0`);
* a `crypto.Address` is identified with its canonical string form
  `address.String()`, which is the only way the source ever uses it;
* Go `uint64` values are `Nat`; every arithmetic step of the source is
  either explicitly guarded against overflow/underflow (balances) or is
  modelled with an explicit `% 2 ^ 64` (sequence increment);
* `acm.Account.Marshal`/`Unmarshal` (an external protobuf codec that
  round-trips byte-for-byte) is modelled by an injective encoding into a
  one-element byte list, with a computable decoder that is a left inverse;
  the `PublicKey` field of `acm.Account` is omitted: the adapter never reads
  or writes it;
* the chaincode stub's `GetState` reads from a read snapshot that is not
  affected by `PutState` in the same transaction (Fabric semantics, and
  exactly how the repository's own test stub is built); `PutState`/`DelState`
  accumulate a write set; `fail*` oracles decide whether a stub call at a
  given key returns an error; every issued stub call is logged.
-/

/-- Bytes of the Go code (a `[]byte` value); a byte is modelled as a `Nat`. -/
abbrev Bytes := List Nat

/-- Canonical string form of a `crypto.Address`.  The source only ever uses
an address through `address.String()` (as a cache key, a ledger key, or a
message argument), so the model identifies the address with that string. -/
abbrev Address := String

/-- Error codes of `burrow/execution/errors` that `statemanager.go` latches,
plus `ioError` for an error returned by the chaincode stub and `decodeError`
for a failing account unmarshal. -/
inductive ErrCode where
  | duplicateAddress
  | invalidAddress
  | illegalWrite
  | integerOverflow
  | insufficientBalance
  | ioError
  | decodeError
  deriving DecidableEq

/-- Model of `binary.Word256`: a word of exactly 32 bytes. -/
abbrev Word256 := { bs : Bytes // bs.length = 32 }

/-- Model of `binary.Zero256`. -/
def zero256 : Word256 := ⟨List.replicate 32 0, by simp⟩

/-- Model of `binary.LeftPadWord256`: copy the bytes into the right end of a
zeroed 32-byte word (the source would panic on more than 32 bytes; such an
input never occurs, and the model truncates). -/
def leftPadWord256 (bz : Bytes) : Word256 :=
  ⟨List.replicate (32 - bz.length) 0 ++ bz.take 32, by
    simp [List.length_append, List.length_take]⟩

/-- Lower-case hex digit of a value below 16. -/
def hexDigit (n : Nat) : Char :=
  if n < 10 then Char.ofNat (48 + n) else Char.ofNat (87 + n)

/-- Model of `hex.EncodeToString`: two lower-case hex digits per byte. -/
def hexEncode (bs : Bytes) : String :=
  String.mk (bs.foldr (fun b acc => hexDigit (b / 16) :: hexDigit (b % 16) :: acc) [])

/-- Model of the composite storage key that the source builds inline as
`address.String() + hex.EncodeToString(key.Bytes())`. -/
def compositeKey (address : Address) (key : Word256) : String :=
  address ++ hexEncode key.val

/-- Model of `permission.BasePermissions`: a permission bitset together with
the set of bits that have been explicitly set. -/
structure BasePermissions where
  perms : Nat
  setBit : Nat
  deriving DecidableEq

/-- Model of `permission.AccountPermissions`: base bitset plus named roles. -/
structure AccountPermissions where
  base : BasePermissions
  roles : List String
  deriving DecidableEq

/-- Flag `permission.Send`. -/
def permSend : Nat := 2

/-- Flag `permission.Call`. -/
def permCall : Nat := 4

/-- Model of `const ContractPermFlags = permission.Call | permission.Send`. -/
def ContractPermFlags : Nat := permCall ||| permSend

/-- Model of the package-level value `ContractPerms` of `statemanager.go`. -/
def ContractPerms : AccountPermissions :=
  { base := { perms := ContractPermFlags, setBit := ContractPermFlags }, roles := [] }

/-- Model of burrow `BasePermissions.Set`: a zero flag is rejected by the
library (the returned error is discarded by `statemanager.go`) and nothing is
mutated; otherwise the set bit is recorded and the permission bit is set or
cleared.  Go `p.Perms &^ ty` (and-not) is written `p.perms &&& (p.perms ^^^ ty)`. -/
def BasePermissions.set (p : BasePermissions) (ty : Nat) (value : Bool) : BasePermissions :=
  if ty = 0 then p
  else if value then { perms := p.perms ||| ty, setBit := p.setBit ||| ty }
  else { perms := p.perms &&& (p.perms ^^^ ty), setBit := p.setBit ||| ty }

/-- Model of burrow `BasePermissions.Unset` (same zero-flag handling). -/
def BasePermissions.unset (p : BasePermissions) (ty : Nat) : BasePermissions :=
  if ty = 0 then p
  else { perms := p.perms &&& (p.perms ^^^ ty), setBit := p.setBit ||| ty }

/-- Model of burrow `AccountPermissions.AddRole`: append the role unless it
is already present; report whether the set changed. -/
def AccountPermissions.addRole (ap : AccountPermissions) (role : String) :
    Bool × AccountPermissions :=
  if ap.roles.contains role then (false, ap)
  else (true, { ap with roles := ap.roles ++ [role] })

/-- Model of burrow `AccountPermissions.RemoveRole`: remove the first
occurrence of the role if present; report whether the set changed. -/
def AccountPermissions.removeRole (ap : AccountPermissions) (role : String) :
    Bool × AccountPermissions :=
  if ap.roles.contains role then (true, { ap with roles := ap.roles.erase role })
  else (false, ap)

/-- Model of `acm.Account` (the `PublicKey` field, which the adapter never
reads or writes, is omitted). -/
structure Account where
  address : Address
  balance : Nat
  code : Bytes
  sequence : Nat
  permissions : AccountPermissions
  deriving DecidableEq

/-- Characters are encodable (into their code points). -/
instance : Encodable Char :=
  Encodable.ofLeftInverse Char.toNat Char.ofNat Char.ofNat_toNat

/-- Strings are encodable (through their character lists). -/
instance : Encodable String :=
  Encodable.ofLeftInverse String.data (fun l => String.mk l) (fun s => by cases s; rfl)

/-- Flat tuple view of an account, used to derive its encoding. -/
def accountRepr (a : Account) : Address × Nat × Bytes × Nat × Nat × Nat × List String :=
  (a.address, a.balance, a.code, a.sequence,
    a.permissions.base.perms, a.permissions.base.setBit, a.permissions.roles)

/-- Rebuild an account from its flat tuple view. -/
def accountOfRepr : Address × Nat × Bytes × Nat × Nat × Nat × List String → Account
  | (ad, bal, cd, sq, pm, sb, rs) =>
    { address := ad, balance := bal, code := cd, sequence := sq,
      permissions := { base := { perms := pm, setBit := sb }, roles := rs } }

/-- Accounts are encodable. -/
instance : Encodable Account :=
  Encodable.ofLeftInverse accountRepr accountOfRepr
    (fun a => by rcases a with ⟨ad, bal, cd, sq, ⟨⟨pm, sb⟩, rs⟩⟩; rfl)

/-- Model of `acm.Account.Marshal`: an injective, byte-for-byte round-tripping
serialization.  The model packs the whole account into a single abstract byte;
all the source ever does with the serialized form is store it, compare it and
test its length against zero, and a marshalled account is never zero-length. -/
def Account.Marshal (a : Account) : Bytes := [Encodable.encode a]

/-- Model of `acm.Account.Unmarshal` (as used in `GetAccount`): decode the
serialized bytes, or fail. -/
def unmarshalAccount (serialized : Bytes) : Option Account :=
  match serialized with
  | [n] => Encodable.decode n
  | _ => none

/-- Model of burrow `binary.IsUint64SumOverflow`:
`math.MaxUint64 - a < b` in `uint64` arithmetic. -/
def isUint64SumOverflow (a b : Nat) : Bool := decide (2 ^ 64 - 1 - a < b)

/-- Outcome-level model of the chaincode stub (`shim.ChaincodeStubInterface`)
together with logs of the calls the state manager issues against it.
`readData` is the transaction's read snapshot (a zero-length value means
absent); the `fail*` oracles decide whether a call at a given key returns an
error; `writeSet` accumulates successful puts and deletes; the logs record
every issued call, failed or not. -/
structure Ledger where
  readData : String → Bytes
  failGet : String → Bool
  failPut : String → Bool
  failDel : String → Bool
  writeSet : String → Option Bytes
  getLog : List String
  putLog : List (String × Bytes)
  delLog : List String

/-- Model of `stub.GetState`. -/
def Ledger.getState (lg : Ledger) (key : String) : Except ErrCode Bytes × Ledger :=
  let lg1 := { lg with getLog := lg.getLog ++ [key] }
  if lg.failGet key then (Except.error ErrCode.ioError, lg1)
  else (Except.ok (lg.readData key), lg1)

/-- Model of `stub.PutState`. -/
def Ledger.putState (lg : Ledger) (key : String) (value : Bytes) : Option ErrCode × Ledger :=
  let lg1 := { lg with putLog := lg.putLog ++ [(key, value)] }
  if lg.failPut key then (some ErrCode.ioError, lg1)
  else (none, { lg1 with writeSet := fun k => if k = key then some value else lg.writeSet k })

/-- Model of `stub.DelState`. -/
def Ledger.delState (lg : Ledger) (key : String) : Option ErrCode × Ledger :=
  let lg1 := { lg with delLog := lg.delLog ++ [key] }
  if lg.failDel key then (some ErrCode.ioError, lg1)
  else (none, { lg1 with writeSet := fun k => if k = key then none else lg.writeSet k })

/-- State shared between an adapter and every view produced by `NewCache`.
In Go the stub and the two cache maps are reference values that `NewCache`
copies into the new struct, so parent and view alias the same stub, the same
`storageCache` map and the same `accountCache` map. -/
structure Shared where
  ledger : Ledger
  storageCache : String → Option Word256
  accountCache : String → Option Bytes

/-- Model of the `stateManager` struct.  `shared` holds the aliased reference
fields (stub and caches); `error` and `readonly` are plain per-instance
value fields. -/
structure SM where
  shared : Shared
  error : Option ErrCode
  readonly : Bool

/-- Model of `NewStateManager`: fresh empty caches, no latched error. -/
def NewStateManager (lg : Ledger) : SM :=
  { shared := { ledger := lg, storageCache := fun _ => none, accountCache := fun _ => none },
    error := none, readonly := false }

/-- Model of `state.CacheOption` as a closed option set (the source compares
options against the sentinel `state.ReadOnly` via reflection). -/
inductive CacheOption where
  | readOnly
  deriving DecidableEq

/-- Model of `NewCache`: a view sharing the parent's reference fields, with a
fresh (nil) latched error, marked read-only when the option is passed. -/
def SM.NewCache (s : SM) (cacheOptions : List CacheOption) : SM :=
  { shared := s.shared,
    error := none,
    readonly := cacheOptions.foldl (fun _ option => match option with
      | CacheOption.readOnly => true) false }

/-- Model of `Sync`: return the latched error if any; otherwise a no-op. -/
def SM.Sync (s : SM) : Option ErrCode := s.error

/-- Model of `Error`: inspect the latched error without clearing it. -/
def SM.Error (s : SM) : Option ErrCode := s.error

/-- Model of `PushError`: latch the error only if none is latched yet (the
source additionally decorates the message with a stack trace, which the model
drops; every call site passes a non-nil error, so the `AsException` nil check
cannot fire). -/
def SM.PushError (s : SM) (e : ErrCode) : SM :=
  if s.error = none then { s with error := some e } else s

/-- Model of `GetStorage`: cache first; on a miss read through the stub,
latching a read failure and returning the zero word in that case.  The
storage cache is not populated on a miss (the source has no cache assignment
on this path). -/
def SM.GetStorage (s : SM) (address : Address) (key : Word256) : Word256 × SM :=
  let compKey := compositeKey address key
  match s.shared.storageCache compKey with
  | some val => (val, s)
  | none =>
    match s.shared.ledger.getState compKey with
    | (Except.error e, lg1) =>
      (zero256, SM.PushError { s with shared := { s.shared with ledger := lg1 } } e)
    | (Except.ok val, lg1) =>
      (leftPadWord256 val, { s with shared := { s.shared with ledger := lg1 } })

/-- Shared tail of `GetAccount`: zero-length bytes mean "no account", and a
failing unmarshal is an error. -/
def decodeAccountBytes (serialized : Bytes) : Except ErrCode (Option Account) :=
  if serialized.length = 0 then Except.ok none
  else
    match unmarshalAccount serialized with
    | none => Except.error ErrCode.decodeError
    | some acct => Except.ok (some acct)

/-- Model of `GetAccount`: cache-first read of the serialized account bytes;
on a cache miss the bytes are fetched from the stub, and a stub failure is
returned to the caller (not latched here).  The account cache is not
populated on a miss (the source has no cache assignment on this path). -/
def SM.GetAccount (s : SM) (address : Address) : Except ErrCode (Option Account) × SM :=
  match s.shared.accountCache address with
  | some serialized => (decodeAccountBytes serialized, s)
  | none =>
    match s.shared.ledger.getState address with
    | (Except.error e, lg1) =>
      (Except.error e, { s with shared := { s.shared with ledger := lg1 } })
    | (Except.ok serialized, lg1) =>
      (decodeAccountBytes serialized, { s with shared := { s.shared with ledger := lg1 } })

/-- Model of the unexported method `account`: `GetAccount` with the read
failure latched. -/
def SM.account (s : SM) (address : Address) : Option Account × SM :=
  match s.GetAccount address with
  | (Except.error e, s1) => (none, s1.PushError e)
  | (Except.ok acc, s1) => (acc, s1)

/-- Model of the unexported method `mustAccount`: like `account`, but latches
`ErrorCodeIllegalWrite` ("attempted to modify non-existent account") when the
account is absent. -/
def SM.mustAccount (s : SM) (address : Address) : Option Account × SM :=
  match s.account address with
  | (none, s1) => (none, s1.PushError ErrCode.illegalWrite)
  | (some acc, s1) => (some acc, s1)

/-- Model of `Exists`: lookup and test presence; a read failure is latched
and reported as absence. -/
def SM.Exists (s : SM) (address : Address) : Bool × SM :=
  match s.GetAccount address with
  | (Except.error e, s1) => (false, s1.PushError e)
  | (Except.ok none, s1) => (false, s1)
  | (Except.ok (some _), s1) => (true, s1)

/-- Model of `GetBalance`: zero when the account is absent. -/
def SM.GetBalance (s : SM) (address : Address) : Nat × SM :=
  match s.account address with
  | (none, s1) => (0, s1)
  | (some acc, s1) => (acc.balance, s1)

/-- Model of `GetPermissions`: the zero permission value when absent. -/
def SM.GetPermissions (s : SM) (address : Address) : AccountPermissions × SM :=
  match s.account address with
  | (none, s1) => ({ base := { perms := 0, setBit := 0 }, roles := [] }, s1)
  | (some acc, s1) => (acc.permissions, s1)

/-- Model of `GetCode`: nil (empty) code when the account is absent. -/
def SM.GetCode (s : SM) (address : Address) : Bytes × SM :=
  match s.account address with
  | (none, s1) => ([], s1)
  | (some acc, s1) => (acc.code, s1)

/-- Model of `GetSequence`: zero when the account is absent. -/
def SM.GetSequence (s : SM) (address : Address) : Nat × SM :=
  match s.account address with
  | (none, s1) => (0, s1)
  | (some acc, s1) => (acc.sequence, s1)

/-- Model of the unexported method `updateAccount`: marshal the account,
write the bytes into the account cache, then put them to the stub, latching a
put failure.  Marshal is total in the model, so the marshal-error branch of
the source cannot fire.  Note the source writes the cache before issuing the
put, so the cache is updated even when the put fails. -/
def SM.updateAccount (s : SM) (updatedAccount : Account) : SM :=
  let serialized := Account.Marshal updatedAccount
  let cache1 := fun k =>
    if k = updatedAccount.address then some serialized else s.shared.accountCache k
  match s.shared.ledger.putState updatedAccount.address serialized with
  | (none, lg1) => { s with shared := { s.shared with accountCache := cache1, ledger := lg1 } }
  | (some e, lg1) =>
    SM.PushError { s with shared := { s.shared with accountCache := cache1, ledger := lg1 } } e

/-- Model of the unexported method `removeAccount`: drop the cache entry and
delete from the stub, returning the stub error to the caller. -/
def SM.removeAccount (s : SM) (address : Address) : Option ErrCode × SM :=
  let cache1 := fun k => if k = address then none else s.shared.accountCache k
  match s.shared.ledger.delState address with
  | (res, lg1) => (res, { s with shared := { s.shared with accountCache := cache1, ledger := lg1 } })

/-- Model of `CreateAccount`: latch `ErrorCodeDuplicateAddress` when the
account already exists (the source re-reads the account once more on that
path, only to format the error message); otherwise persist a fresh account
with zero balance, nil code, zero sequence and the contract permissions. -/
def SM.CreateAccount (s : SM) (address : Address) : SM :=
  match s.Exists address with
  | (true, s1) =>
    match s1.GetAccount address with
    | (_, s2) => s2.PushError ErrCode.duplicateAddress
  | (false, s1) =>
    s1.updateAccount { address := address, balance := 0, code := [], sequence := 0,
                       permissions := ContractPerms }

/-- Model of `InitCode`: require the account (via `mustAccount`) and require
its code to be empty; on success store the code and persist. -/
def SM.InitCode (s : SM) (address : Address) (code : Bytes) : SM :=
  match s.mustAccount address with
  | (none, s1) => s1.PushError ErrCode.invalidAddress
  | (some acc, s1) =>
    if acc.code.length > 0 then s1.PushError ErrCode.illegalWrite
    else s1.updateAccount { acc with code := code }

/-- Model of `RemoveAccount`: latch `ErrorCodeDuplicateAddress` (the source
reuses this code for the does-not-exist case) when absent; otherwise delete
from cache and stub, latching a stub failure. -/
def SM.RemoveAccount (s : SM) (address : Address) : SM :=
  match s.Exists address with
  | (false, s1) => s1.PushError ErrCode.duplicateAddress
  | (true, s1) =>
    match s1.removeAccount address with
    | (some e, s2) => s2.PushError e
    | (none, s2) => s2

/-- Model of `SetStorage`: put through the stub first; only on success update
the storage cache; latch a put failure. -/
def SM.SetStorage (s : SM) (address : Address) (key value : Word256) : SM :=
  let compKey := compositeKey address key
  match s.shared.ledger.putState compKey value.val with
  | (none, lg1) =>
    let cache1 := fun k => if k = compKey then some value else s.shared.storageCache k
    { s with shared := { s.shared with ledger := lg1, storageCache := cache1 } }
  | (some e, lg1) =>
    SM.PushError { s with shared := { s.shared with ledger := lg1 } } e

/-- Model of `AddToBalance`: require the account; latch
`ErrorCodeIntegerOverflow` when the unsigned sum would overflow; otherwise
add and persist. -/
def SM.AddToBalance (s : SM) (address : Address) (amount : Nat) : SM :=
  match s.mustAccount address with
  | (none, s1) => s1
  | (some acc, s1) =>
    if isUint64SumOverflow acc.balance amount then s1.PushError ErrCode.integerOverflow
    else s1.updateAccount { acc with balance := acc.balance + amount }

/-- Model of `SubtractFromBalance`: require the account; latch
`ErrorCodeInsufficientBalance` when the amount exceeds the balance; otherwise
subtract and persist. -/
def SM.SubtractFromBalance (s : SM) (address : Address) (amount : Nat) : SM :=
  match s.mustAccount address with
  | (none, s1) => s1
  | (some acc, s1) =>
    if acc.balance < amount then s1.PushError ErrCode.insufficientBalance
    else s1.updateAccount { acc with balance := acc.balance - amount }

/-- Model of `SetPermission`: require the account, set the flag, persist. -/
def SM.SetPermission (s : SM) (address : Address) (permFlag : Nat) (value : Bool) : SM :=
  match s.mustAccount address with
  | (none, s1) => s1
  | (some acc, s1) =>
    s1.updateAccount { acc with permissions :=
      { acc.permissions with base := acc.permissions.base.set permFlag value } }

/-- Model of `UnsetPermission`: require the account, clear the flag, persist. -/
def SM.UnsetPermission (s : SM) (address : Address) (permFlag : Nat) : SM :=
  match s.mustAccount address with
  | (none, s1) => s1
  | (some acc, s1) =>
    s1.updateAccount { acc with permissions :=
      { acc.permissions with base := acc.permissions.base.unset permFlag } }

/-- Model of `AddRole`: require the account, add the role, persist, report
whether the role set changed. -/
def SM.AddRole (s : SM) (address : Address) (role : String) : Bool × SM :=
  match s.mustAccount address with
  | (none, s1) => (false, s1)
  | (some acc, s1) =>
    match acc.permissions.addRole role with
    | (added, perms1) => (added, s1.updateAccount { acc with permissions := perms1 })

/-- Model of `RemoveRole`: require the account, remove the role, persist,
report whether the role set changed. -/
def SM.RemoveRole (s : SM) (address : Address) (role : String) : Bool × SM :=
  match s.mustAccount address with
  | (none, s1) => (false, s1)
  | (some acc, s1) =>
    match acc.permissions.removeRole role with
    | (removed, perms1) => (removed, s1.updateAccount { acc with permissions := perms1 })

/-- Model of `IncSequence`: require the account, increment the nonce (a Go
`uint64` increment wraps), persist. -/
def SM.IncSequence (s : SM) (address : Address) : SM :=
  match s.mustAccount address with
  | (none, s1) => s1
  | (some acc, s1) => s1.updateAccount { acc with sequence := (acc.sequence + 1) % 2 ^ 64 }

/-- State of an adapter after one stub read at the given key was issued and
nothing else changed; used to phrase cache-miss behaviour concisely. -/
def SM.logGet (s : SM) (key : String) : SM :=
  { s with shared := { s.shared with ledger :=
      { s.shared.ledger with getLog := s.shared.ledger.getLog ++ [key] } } }

/-- Ledger whose stub calls all succeed, with a given read snapshot and empty
logs; used to build concrete adapter runs. -/
def okLedger (rd : String → Bytes) : Ledger :=
  { readData := rd, failGet := fun _ => false, failPut := fun _ => false,
    failDel := fun _ => false, writeSet := fun _ => none,
    getLog := [], putLog := [], delLog := [] }

/-- Concrete 40-character address string (the canonical form of a 20-byte
address), used in concrete runs. -/
def addrA : Address := "0000000000000000000000000000000000000001"

/-- Second concrete address. -/
def addrB : Address := "0000000000000000000000000000000000000002"

/-- Concrete 32-byte storage key. -/
def keyZ : Word256 := zero256

/-- Concrete 32-byte storage value. -/
def valOne : Word256 := leftPadWord256 [1]

/-- Second concrete 32-byte storage value. -/
def valTwo : Word256 := leftPadWord256 [2]

/-! Helper lemmas about the embedded operations. -/

/-- Decoding a marshalled account yields the account back (the round-trip
contract of the external codec, realized by the model's encoding). -/
theorem decodeAccountBytes_marshal (a : Account) :
    decodeAccountBytes (Account.Marshal a) = Except.ok (some a) := by
  simp [decodeAccountBytes, Account.Marshal, unmarshalAccount, Encodable.encodek]

/-- GetAccount on a cache hit holding a marshalled account returns it and
leaves the state untouched. -/
theorem getAccount_cached (s : SM) (A : Address) (acc : Account)
    (h : s.shared.accountCache A = some (Account.Marshal acc)) :
    s.GetAccount A = (Except.ok (some acc), s) := by
  simp [SM.GetAccount, h, decodeAccountBytes_marshal]

/-- Lookup through `account` on a cache hit. -/
theorem account_cached (s : SM) (A : Address) (acc : Account)
    (h : s.shared.accountCache A = some (Account.Marshal acc)) :
    s.account A = (some acc, s) := by
  simp [SM.account, getAccount_cached s A acc h]

/-- Lookup through `mustAccount` on a cache hit. -/
theorem mustAccount_cached (s : SM) (A : Address) (acc : Account)
    (h : s.shared.accountCache A = some (Account.Marshal acc)) :
    s.mustAccount A = (some acc, s) := by
  simp [SM.mustAccount, account_cached s A acc h]

/-- Existence test on a cache hit. -/
theorem exists_cached (s : SM) (A : Address) (acc : Account)
    (h : s.shared.accountCache A = some (Account.Marshal acc)) :
    s.Exists A = (true, s) := by
  simp [SM.Exists, getAccount_cached s A acc h]

/-- GetAccount on a cache miss with a successful, absent stub read: no
account, no error, one stub read issued, caches untouched. -/
theorem getAccount_absent (s : SM) (A : Address)
    (h1 : s.shared.accountCache A = none)
    (h2 : s.shared.ledger.failGet A = false)
    (h3 : s.shared.ledger.readData A = []) :
    s.GetAccount A = (Except.ok none, s.logGet A) := by
  simp [SM.GetAccount, h1, Ledger.getState, h2, h3, decodeAccountBytes, SM.logGet]

/-- Lookup through `account` on an absent account. -/
theorem account_absent (s : SM) (A : Address)
    (h1 : s.shared.accountCache A = none)
    (h2 : s.shared.ledger.failGet A = false)
    (h3 : s.shared.ledger.readData A = []) :
    s.account A = (none, s.logGet A) := by
  simp [SM.account, getAccount_absent s A h1 h2 h3]

/-- Lookup through `mustAccount` on an absent account latches
`ErrorCodeIllegalWrite`. -/
theorem mustAccount_absent (s : SM) (A : Address)
    (h1 : s.shared.accountCache A = none)
    (h2 : s.shared.ledger.failGet A = false)
    (h3 : s.shared.ledger.readData A = []) :
    s.mustAccount A = (none, (s.logGet A).PushError ErrCode.illegalWrite) := by
  simp [SM.mustAccount, account_absent s A h1 h2 h3]

/-- Existence test on an absent account: false, no error pushed. -/
theorem exists_absent (s : SM) (A : Address)
    (h1 : s.shared.accountCache A = none)
    (h2 : s.shared.ledger.failGet A = false)
    (h3 : s.shared.ledger.readData A = []) :
    s.Exists A = (false, s.logGet A) := by
  simp [SM.Exists, getAccount_absent s A h1 h2 h3]

/-- Behaviour of `updateAccount` when the stub put succeeds. -/
theorem updateAccount_ok (s : SM) (acc : Account)
    (hput : s.shared.ledger.failPut acc.address = false) :
    s.updateAccount acc =
      { s with shared :=
        { s.shared with
          accountCache := fun k =>
            if k = acc.address then some (Account.Marshal acc) else s.shared.accountCache k,
          ledger := { s.shared.ledger with
            putLog := s.shared.ledger.putLog ++ [(acc.address, Account.Marshal acc)],
            writeSet := fun k =>
              if k = acc.address then some (Account.Marshal acc)
              else s.shared.ledger.writeSet k } } } := by
  simp [SM.updateAccount, Ledger.putState, hput]

/-- PushError on a clean adapter latches the error. -/
theorem pushError_none (s : SM) (e : ErrCode) (h : s.error = none) :
    s.PushError e = { s with error := some e } := by
  simp [SM.PushError, h]

/-- PushError never overwrites an already latched error. -/
theorem pushError_some (s : SM) (e x : ErrCode) (h : s.error = some e) :
    s.PushError x = s := by
  simp [SM.PushError, h]

/-- PushError leaves the shared (aliased) state untouched. -/
theorem pushError_shared (s : SM) (e : ErrCode) : (s.PushError e).shared = s.shared := by
  unfold SM.PushError
  split <;> rfl

/-- GetAccount never changes the latched error. -/
theorem getAccount_error_eq (s : SM) (A : Address) :
    (s.GetAccount A).2.error = s.error := by
  unfold SM.GetAccount
  split
  · rfl
  · split <;> rfl

/-- Lookup through `account` preserves an already latched error. -/
theorem account_error_some (s : SM) (A : Address) (e : ErrCode) (h : s.error = some e) :
    (s.account A).2.error = some e := by
  have hge := getAccount_error_eq s A
  unfold SM.account
  rcases hga : s.GetAccount A with ⟨res, s1⟩
  rw [hga] at hge
  cases res with
  | error e1 =>
    have h1 : s1.error = some e := by simpa [h] using hge
    simp [pushError_some s1 e e1 h1, h1]
  | ok acc => simpa [h] using hge

/-- Lookup through `mustAccount` preserves an already latched error. -/
theorem mustAccount_error_some (s : SM) (A : Address) (e : ErrCode) (h : s.error = some e) :
    (s.mustAccount A).2.error = some e := by
  have ha := account_error_some s A e h
  unfold SM.mustAccount
  rcases hac : s.account A with ⟨res, s1⟩
  rw [hac] at ha
  cases res with
  | none =>
    have h1 : s1.error = some e := by simpa using ha
    simp [pushError_some s1 e ErrCode.illegalWrite h1, h1]
  | some acc => simpa using ha

/-- Existence test preserves an already latched error. -/
theorem exists_error_some (s : SM) (A : Address) (e : ErrCode) (h : s.error = some e) :
    (s.Exists A).2.error = some e := by
  have hge := getAccount_error_eq s A
  unfold SM.Exists
  rcases hga : s.GetAccount A with ⟨res, s1⟩
  rw [hga] at hge
  have h1 : s1.error = some e := by simpa [h] using hge
  cases res with
  | error e1 => simp [pushError_some s1 e e1 h1, h1]
  | ok acc => cases acc <;> simpa using h1

/-- Persisting an account preserves an already latched error. -/
theorem updateAccount_error_some (s : SM) (acc : Account) (e : ErrCode) (h : s.error = some e) :
    (s.updateAccount acc).error = some e := by
  unfold SM.updateAccount
  dsimp only
  split
  · simpa using h
  · simp [SM.PushError, h]

/-- The unexported `removeAccount` never changes the latched error. -/
theorem removeAccount_error_eq (s : SM) (A : Address) :
    (s.removeAccount A).2.error = s.error := by
  unfold SM.removeAccount
  rcases hds : s.shared.ledger.delState A with ⟨res, lg1⟩
  simp

/-- CreateAccount preserves an already latched error. -/
theorem createAccount_error_some (s : SM) (A : Address) (e : ErrCode) (h : s.error = some e) :
    (s.CreateAccount A).error = some e := by
  have hex := exists_error_some s A e h
  unfold SM.CreateAccount
  rcases hx : s.Exists A with ⟨b, s1⟩
  rw [hx] at hex
  have h1 : s1.error = some e := by simpa using hex
  cases b with
  | true =>
    have hge := getAccount_error_eq s1 A
    rcases hga : s1.GetAccount A with ⟨res, s2⟩
    rw [hga] at hge
    have h2 : s2.error = some e := by simp at hge; rw [hge]; exact h1
    dsimp only
    rw [hga]
    simp [pushError_some s2 e ErrCode.duplicateAddress h2, h2]
  | false => exact updateAccount_error_some s1 _ e h1

/-- RemoveAccount preserves an already latched error. -/
theorem removeAccountOp_error_some (s : SM) (A : Address) (e : ErrCode) (h : s.error = some e) :
    (s.RemoveAccount A).error = some e := by
  have hex := exists_error_some s A e h
  unfold SM.RemoveAccount
  rcases hx : s.Exists A with ⟨b, s1⟩
  rw [hx] at hex
  have h1 : s1.error = some e := by simpa using hex
  cases b with
  | false => simp [pushError_some s1 e ErrCode.duplicateAddress h1, h1]
  | true =>
    have hre := removeAccount_error_eq s1 A
    rcases hrm : s1.removeAccount A with ⟨res, s2⟩
    rw [hrm] at hre
    have h2 : s2.error = some e := by simp at hre; rw [hre]; exact h1
    dsimp only
    rw [hrm]
    cases res with
    | some x => simp [pushError_some s2 e x h2, h2]
    | none => simpa using h2

/-- InitCode preserves an already latched error. -/
theorem initCode_error_some (s : SM) (A : Address) (code : Bytes) (e : ErrCode)
    (h : s.error = some e) : (s.InitCode A code).error = some e := by
  have hmu := mustAccount_error_some s A e h
  unfold SM.InitCode
  rcases hm : s.mustAccount A with ⟨res, s1⟩
  rw [hm] at hmu
  have h1 : s1.error = some e := by simpa using hmu
  cases res with
  | none => simp [pushError_some s1 e ErrCode.invalidAddress h1, h1]
  | some acc =>
    dsimp only
    split
    · rw [pushError_some s1 e ErrCode.illegalWrite h1]; exact h1
    · exact updateAccount_error_some s1 _ e h1

/-- AddToBalance preserves an already latched error. -/
theorem addToBalance_error_some (s : SM) (A : Address) (amount : Nat) (e : ErrCode)
    (h : s.error = some e) : (s.AddToBalance A amount).error = some e := by
  have hmu := mustAccount_error_some s A e h
  unfold SM.AddToBalance
  rcases hm : s.mustAccount A with ⟨res, s1⟩
  rw [hm] at hmu
  have h1 : s1.error = some e := by simpa using hmu
  cases res with
  | none => simpa using h1
  | some acc =>
    dsimp only
    split
    · rw [pushError_some s1 e ErrCode.integerOverflow h1]; exact h1
    · exact updateAccount_error_some s1 _ e h1

/-- SubtractFromBalance preserves an already latched error. -/
theorem subtractFromBalance_error_some (s : SM) (A : Address) (amount : Nat) (e : ErrCode)
    (h : s.error = some e) : (s.SubtractFromBalance A amount).error = some e := by
  have hmu := mustAccount_error_some s A e h
  unfold SM.SubtractFromBalance
  rcases hm : s.mustAccount A with ⟨res, s1⟩
  rw [hm] at hmu
  have h1 : s1.error = some e := by simpa using hmu
  cases res with
  | none => simpa using h1
  | some acc =>
    dsimp only
    split
    · rw [pushError_some s1 e ErrCode.insufficientBalance h1]; exact h1
    · exact updateAccount_error_some s1 _ e h1

/-- SetPermission preserves an already latched error. -/
theorem setPermission_error_some (s : SM) (A : Address) (permFlag : Nat) (value : Bool)
    (e : ErrCode) (h : s.error = some e) : (s.SetPermission A permFlag value).error = some e := by
  have hmu := mustAccount_error_some s A e h
  unfold SM.SetPermission
  rcases hm : s.mustAccount A with ⟨res, s1⟩
  rw [hm] at hmu
  have h1 : s1.error = some e := by simpa using hmu
  cases res with
  | none => simpa using h1
  | some acc => exact updateAccount_error_some s1 _ e h1

/-- UnsetPermission preserves an already latched error. -/
theorem unsetPermission_error_some (s : SM) (A : Address) (permFlag : Nat)
    (e : ErrCode) (h : s.error = some e) : (s.UnsetPermission A permFlag).error = some e := by
  have hmu := mustAccount_error_some s A e h
  unfold SM.UnsetPermission
  rcases hm : s.mustAccount A with ⟨res, s1⟩
  rw [hm] at hmu
  have h1 : s1.error = some e := by simpa using hmu
  cases res with
  | none => simpa using h1
  | some acc => exact updateAccount_error_some s1 _ e h1

/-- AddRole preserves an already latched error. -/
theorem addRole_error_some (s : SM) (A : Address) (role : String) (e : ErrCode)
    (h : s.error = some e) : ((s.AddRole A role).2).error = some e := by
  have hmu := mustAccount_error_some s A e h
  unfold SM.AddRole
  rcases hm : s.mustAccount A with ⟨res, s1⟩
  rw [hm] at hmu
  have h1 : s1.error = some e := by simpa using hmu
  cases res with
  | none => simpa using h1
  | some acc =>
    rcases har : acc.permissions.addRole role with ⟨added, perms1⟩
    simpa using updateAccount_error_some s1 _ e h1

/-- RemoveRole preserves an already latched error. -/
theorem removeRole_error_some (s : SM) (A : Address) (role : String) (e : ErrCode)
    (h : s.error = some e) : ((s.RemoveRole A role).2).error = some e := by
  have hmu := mustAccount_error_some s A e h
  unfold SM.RemoveRole
  rcases hm : s.mustAccount A with ⟨res, s1⟩
  rw [hm] at hmu
  have h1 : s1.error = some e := by simpa using hmu
  cases res with
  | none => simpa using h1
  | some acc =>
    rcases har : acc.permissions.removeRole role with ⟨removed, perms1⟩
    simpa using updateAccount_error_some s1 _ e h1

/-- IncSequence preserves an already latched error. -/
theorem incSequence_error_some (s : SM) (A : Address) (e : ErrCode)
    (h : s.error = some e) : (s.IncSequence A).error = some e := by
  have hmu := mustAccount_error_some s A e h
  unfold SM.IncSequence
  rcases hm : s.mustAccount A with ⟨res, s1⟩
  rw [hm] at hmu
  have h1 : s1.error = some e := by simpa using hmu
  cases res with
  | none => simpa using h1
  | some acc => exact updateAccount_error_some s1 _ e h1

/-- SetStorage preserves an already latched error. -/
theorem setStorage_error_some (s : SM) (A : Address) (K V : Word256) (e : ErrCode)
    (h : s.error = some e) : (s.SetStorage A K V).error = some e := by
  unfold SM.SetStorage
  dsimp only
  split
  · simpa using h
  · simp [SM.PushError, h]

/-- PutState always appends to the put log, failed or not. -/
theorem putState_putLog (lg : Ledger) (k : String) (v : Bytes) :
    (lg.putState k v).2.putLog = lg.putLog ++ [(k, v)] := by
  unfold Ledger.putState
  dsimp only
  split <;> rfl

/-- SetStorage always issues exactly one stub put of the value under the
composite key, whether or not an error is latched and whether or not the put
succeeds. -/
theorem setStorage_putLog (s : SM) (A : Address) (K V : Word256) :
    (s.SetStorage A K V).shared.ledger.putLog
      = s.shared.ledger.putLog ++ [(compositeKey A K, V.val)] := by
  have hpl := putState_putLog s.shared.ledger (compositeKey A K) V.val
  unfold SM.SetStorage
  dsimp only
  split
  next lg1 heq => rw [heq] at hpl; simpa using hpl
  next e1 lg1 heq =>
    rw [heq] at hpl
    have := pushError_shared { s with shared := { s.shared with ledger := lg1 } } e1
    rw [this]
    simpa using hpl

/-- Behaviour of `SetStorage` when the stub put succeeds: the put is issued
and the storage cache is updated; the error is untouched. -/
theorem setStorage_ok (s : SM) (A : Address) (K V : Word256)
    (hput : s.shared.ledger.failPut (compositeKey A K) = false) :
    s.SetStorage A K V =
      { s with shared := { s.shared with
          ledger := { s.shared.ledger with
            putLog := s.shared.ledger.putLog ++ [(compositeKey A K, V.val)],
            writeSet := fun k =>
              if k = compositeKey A K then some V.val else s.shared.ledger.writeSet k },
          storageCache := fun k =>
            if k = compositeKey A K then some V else s.shared.storageCache k } } := by
  simp [SM.SetStorage, Ledger.putState, hput]

/-- GetStorage on a cache hit returns the cached word and leaves the whole
adapter state (stub logs included) untouched. -/
theorem getStorage_hit (s : SM) (A : Address) (K V : Word256)
    (h : s.shared.storageCache (compositeKey A K) = some V) :
    s.GetStorage A K = (V, s) := by
  simp [SM.GetStorage, h]

/-- GetStorage on a cache miss with a successful stub read: the snapshot
value is left-padded and returned, one stub read is issued, and neither
cache is populated. -/
theorem getStorage_miss (s : SM) (A : Address) (K : Word256)
    (h1 : s.shared.storageCache (compositeKey A K) = none)
    (h2 : s.shared.ledger.failGet (compositeKey A K) = false) :
    s.GetStorage A K =
      (leftPadWord256 (s.shared.ledger.readData (compositeKey A K)),
        s.logGet (compositeKey A K)) := by
  simp [SM.GetStorage, h1, Ledger.getState, h2, SM.logGet]

/-! Claim C1. -/

/-- Adapter that latched `ErrorCodeIllegalWrite` by subtracting from the
balance of a non-existent account on a fresh state manager over an
all-succeeding, initially empty ledger. -/
def cexPreC1 : SM := (NewStateManager (okLedger (fun _ => []))).SubtractFromBalance addrA 1

/-- Adapter state after a further `SetStorage` on the latched adapter. -/
def cexPostC1 : SM := cexPreC1.SetStorage addrA keyZ valOne

/-- Claim C1 is false as stated: after an error has been latched
(`ErrorCodeIllegalWrite`, from mutating a missing account), a subsequent
`SetStorage` is NOT a silent no-op — it still issues a stub write and still
mutates the storage cache (the latched error itself is preserved). -/
theorem C1_counterexample :
    cexPreC1.error = some ErrCode.illegalWrite
    ∧ cexPostC1.error = some ErrCode.illegalWrite
    ∧ cexPostC1.shared.ledger.putLog = [(compositeKey addrA keyZ, valOne.val)]
    ∧ cexPostC1.shared.storageCache (compositeKey addrA keyZ) = some valOne := by
  decide

/-- Claim C1 (amended): once an error has been latched it is never
overwritten — each of the eleven mutating operations leaves the latched
error exactly as it was (their internal `PushError` calls are dropped) — but
the mutators are NOT degraded to no-ops: they still execute their reads,
cache mutations and stub writes (positively: `SetStorage` always issues its
stub put, latched error or not). -/
theorem C1_amended (s : SM) (e : ErrCode) (A : Address) (K V : Word256)
    (code : Bytes) (amount : Nat) (flag : Nat) (b : Bool) (role : String)
    (h : s.error = some e) :
    (s.CreateAccount A).error = some e
    ∧ (s.RemoveAccount A).error = some e
    ∧ (s.InitCode A code).error = some e
    ∧ (s.AddToBalance A amount).error = some e
    ∧ (s.SubtractFromBalance A amount).error = some e
    ∧ (s.SetStorage A K V).error = some e
    ∧ (s.SetPermission A flag b).error = some e
    ∧ (s.UnsetPermission A flag).error = some e
    ∧ ((s.AddRole A role).2).error = some e
    ∧ ((s.RemoveRole A role).2).error = some e
    ∧ (s.IncSequence A).error = some e
    ∧ (s.SetStorage A K V).shared.ledger.putLog
        = s.shared.ledger.putLog ++ [(compositeKey A K, V.val)] :=
  ⟨createAccount_error_some s A e h, removeAccountOp_error_some s A e h,
   initCode_error_some s A code e h, addToBalance_error_some s A amount e h,
   subtractFromBalance_error_some s A amount e h, setStorage_error_some s A K V e h,
   setPermission_error_some s A flag b e h, unsetPermission_error_some s A flag e h,
   addRole_error_some s A role e h, removeRole_error_some s A role e h,
   incSequence_error_some s A e h, setStorage_putLog s A K V⟩

/-- Witness for C1 at a concrete latched adapter. -/
theorem C1_witness :
    (cexPreC1.CreateAccount addrB).error = some ErrCode.illegalWrite
    ∧ (cexPreC1.RemoveAccount addrB).error = some ErrCode.illegalWrite
    ∧ (cexPreC1.InitCode addrB [1]).error = some ErrCode.illegalWrite
    ∧ (cexPreC1.AddToBalance addrB 5).error = some ErrCode.illegalWrite
    ∧ (cexPreC1.SubtractFromBalance addrB 5).error = some ErrCode.illegalWrite
    ∧ (cexPreC1.SetStorage addrB keyZ valOne).error = some ErrCode.illegalWrite
    ∧ (cexPreC1.SetPermission addrB 4 true).error = some ErrCode.illegalWrite
    ∧ (cexPreC1.UnsetPermission addrB 4).error = some ErrCode.illegalWrite
    ∧ ((cexPreC1.AddRole addrB "r").2).error = some ErrCode.illegalWrite
    ∧ ((cexPreC1.RemoveRole addrB "r").2).error = some ErrCode.illegalWrite
    ∧ (cexPreC1.IncSequence addrB).error = some ErrCode.illegalWrite
    ∧ (cexPreC1.SetStorage addrB keyZ valOne).shared.ledger.putLog
        = cexPreC1.shared.ledger.putLog ++ [(compositeKey addrB keyZ, valOne.val)] :=
  C1_amended cexPreC1 ErrCode.illegalWrite addrB keyZ valOne [1] 5 4 true "r" (by decide)

/-! Claim C2. -/

/-- GetAccount on a cache miss with a successful stub read: the snapshot
bytes are decoded and returned, one stub read is issued, and the account
cache is not populated. -/
theorem getAccount_miss (s : SM) (A : Address)
    (h1 : s.shared.accountCache A = none)
    (h2 : s.shared.ledger.failGet A = false) :
    s.GetAccount A = (decodeAccountBytes (s.shared.ledger.readData A), s.logGet A) := by
  simp [SM.GetAccount, h1, Ledger.getState, h2, SM.logGet]

/-- Fresh adapter over a ledger whose snapshot has the byte 7 under one
composite storage key. -/
def cexPreC2 : SM :=
  NewStateManager (okLedger (fun k => if k = compositeKey addrA keyZ then [7] else []))

/-- Result of the first `GetStorage` read on that adapter. -/
def cexMidC2 : Word256 × SM := cexPreC2.GetStorage addrA keyZ

/-- Result of an immediately repeated `GetStorage` read of the same key. -/
def cexPostC2 : Word256 × SM := cexMidC2.2.GetStorage addrA keyZ

/-- Claim C2 is false as stated: a `GetStorage` cache miss reads through and
returns the store value, but does NOT store the result into the storage
cache, and an immediately repeated read of the same key issues a second
store query instead of being served from the cache. -/
theorem C2_counterexample :
    cexMidC2.1 = leftPadWord256 [7]
    ∧ cexMidC2.2.shared.storageCache (compositeKey addrA keyZ) = none
    ∧ cexPostC2.2.shared.ledger.getLog
        = [compositeKey addrA keyZ, compositeKey addrA keyZ] := by
  decide

/-- Claim C2 (amended): on an in-memory cache miss with a succeeding store,
`GetStorage` reads through to the Ledger Store and returns the (left-padded)
value, and `GetAccount` reads through and returns the decoded bytes; but
neither populates its cache — the only state change is the logged store
read — so an immediately repeated read of the same key queries the store
again (the caches are populated by writes only). -/
theorem C2_amended (s t : SM) (A : Address) (K : Word256) (B : Address)
    (h1 : s.shared.storageCache (compositeKey A K) = none)
    (h2 : s.shared.ledger.failGet (compositeKey A K) = false)
    (h3 : t.shared.accountCache B = none)
    (h4 : t.shared.ledger.failGet B = false) :
    s.GetStorage A K
      = (leftPadWord256 (s.shared.ledger.readData (compositeKey A K)),
          s.logGet (compositeKey A K))
    ∧ t.GetAccount B = (decodeAccountBytes (t.shared.ledger.readData B), t.logGet B) :=
  ⟨getStorage_miss s A K h1 h2, getAccount_miss t B h3 h4⟩

/-- Witness for C2 at a concrete fresh adapter. -/
theorem C2_witness :
    cexPreC2.GetStorage addrA keyZ
      = (leftPadWord256 (cexPreC2.shared.ledger.readData (compositeKey addrA keyZ)),
          cexPreC2.logGet (compositeKey addrA keyZ))
    ∧ cexPreC2.GetAccount addrB
      = (decodeAccountBytes (cexPreC2.shared.ledger.readData addrB), cexPreC2.logGet addrB) :=
  C2_amended cexPreC2 cexPreC2 addrA keyZ addrB rfl rfl rfl rfl

/-! Claim C3. -/

/-- Result of `InitCode` at an address with no account, on a fresh adapter
over an all-succeeding, initially empty ledger. -/
def cexPostC3 : SM := (NewStateManager (okLedger (fun _ => []))).InitCode addrA [1, 2, 3]

/-- Claim C3 describes the intended behaviour (`InitCode` itself pushes
`ErrorCodeInvalidAddress` for a missing account), but the code latches
`ErrorCodeIllegalWrite` instead: `mustAccount` pushes it first, and
`PushError` keeps the first error, so InitCode's own `InvalidAddress` push
is dead code.  Account state is left unmutated and no store write is issued,
as the claim states. -/
theorem C3_theorem :
    cexPostC3.error = some ErrCode.illegalWrite
    ∧ cexPostC3.error ≠ some ErrCode.invalidAddress
    ∧ cexPostC3.shared.accountCache addrA = none
    ∧ cexPostC3.shared.ledger.putLog = [] := by
  decide

/-! Claim C4. -/

/-- Claim C4: on an existing account (held in the account cache as its
marshalled bytes) with no latched error, `AddToBalance` with an amount whose
unsigned 64-bit sum overflows latches `ErrorCodeIntegerOverflow` and leaves
the stored account and the put log unmutated; with no overflow it stores the
account with balance `balance + amount` in both the account cache and the
store (one put issued). -/
theorem C4_theorem (s t : SM) (A B : Address) (acc acd : Account) (am1 am2 : Nat)
    (h1 : s.shared.accountCache A = some (Account.Marshal acc))
    (h2 : acc.address = A)
    (h3 : s.error = none)
    (h4 : acc.balance < 2 ^ 64) (h5 : am1 < 2 ^ 64)
    (h6 : 2 ^ 64 ≤ acc.balance + am1)
    (k1 : t.shared.accountCache B = some (Account.Marshal acd))
    (k2 : acd.address = B)
    (k3 : t.error = none)
    (k4 : acd.balance < 2 ^ 64) (k5 : am2 < 2 ^ 64)
    (k6 : acd.balance + am2 < 2 ^ 64)
    (k7 : t.shared.ledger.failPut B = false) :
    ((s.AddToBalance A am1).error = some ErrCode.integerOverflow
      ∧ (s.AddToBalance A am1).shared.accountCache A = some (Account.Marshal acc)
      ∧ (s.AddToBalance A am1).shared.ledger.putLog = s.shared.ledger.putLog)
    ∧ ((t.AddToBalance B am2).error = none
      ∧ (t.AddToBalance B am2).shared.accountCache B
          = some (Account.Marshal { acd with balance := acd.balance + am2 })
      ∧ (t.AddToBalance B am2).shared.ledger.putLog
          = t.shared.ledger.putLog
              ++ [(B, Account.Marshal { acd with balance := acd.balance + am2 })]
      ∧ (t.AddToBalance B am2).shared.ledger.writeSet B
          = some (Account.Marshal { acd with balance := acd.balance + am2 })) := by
  constructor
  · have hm := mustAccount_cached s A acc h1
    unfold SM.AddToBalance
    rw [hm]
    dsimp only
    have hov : isUint64SumOverflow acc.balance am1 = true := by
      simp only [isUint64SumOverflow, decide_eq_true_eq]
      omega
    simp [hov, pushError_none s ErrCode.integerOverflow h3, h1]
  · have hm := mustAccount_cached t B acd k1
    unfold SM.AddToBalance
    rw [hm]
    dsimp only
    have hov : isUint64SumOverflow acd.balance am2 = false := by
      simp only [isUint64SumOverflow, decide_eq_false_iff_not]
      omega
    have hup := updateAccount_ok t { acd with balance := acd.balance + am2 }
      (by simpa [k2] using k7)
    simp [k2] at hup
    simp [hov, hup, k2, k3]

/-- Concrete account with the maximal unsigned 64-bit balance. -/
def wAcctMax : Account :=
  { address := addrA, balance := 2 ^ 64 - 1, code := [], sequence := 0,
    permissions := ContractPerms }

/-- Concrete account with a small balance. -/
def wAcctTen : Account :=
  { address := addrB, balance := 10, code := [], sequence := 0,
    permissions := ContractPerms }

/-- Adapter whose account cache holds the two concrete accounts, over an
all-succeeding empty ledger. -/
def wStateC4 : SM :=
  { shared :=
      { ledger := okLedger (fun _ => []),
        storageCache := fun _ => none,
        accountCache := fun k =>
          if k = addrA then some (Account.Marshal wAcctMax)
          else if k = addrB then some (Account.Marshal wAcctTen) else none },
    error := none, readonly := false }

/-- Witness for C4 at the concrete adapter. -/
theorem C4_witness :
    ((wStateC4.AddToBalance addrA 1).error = some ErrCode.integerOverflow
      ∧ (wStateC4.AddToBalance addrA 1).shared.accountCache addrA
          = some (Account.Marshal wAcctMax)
      ∧ (wStateC4.AddToBalance addrA 1).shared.ledger.putLog
          = wStateC4.shared.ledger.putLog)
    ∧ ((wStateC4.AddToBalance addrB 5).error = none
      ∧ (wStateC4.AddToBalance addrB 5).shared.accountCache addrB
          = some (Account.Marshal { wAcctTen with balance := wAcctTen.balance + 5 })
      ∧ (wStateC4.AddToBalance addrB 5).shared.ledger.putLog
          = wStateC4.shared.ledger.putLog
              ++ [(addrB, Account.Marshal { wAcctTen with balance := wAcctTen.balance + 5 })]
      ∧ (wStateC4.AddToBalance addrB 5).shared.ledger.writeSet addrB
          = some (Account.Marshal { wAcctTen with balance := wAcctTen.balance + 5 })) :=
  C4_theorem wStateC4 wStateC4 addrA addrB wAcctMax wAcctTen 1 5
    rfl rfl rfl (by decide) (by decide) (by decide)
    rfl rfl rfl (by decide) (by decide) (by decide) rfl

/-! Claim C5. -/

/-- Claim C5: on an existing cached account with no latched error,
`SubtractFromBalance` with `amount > balance` latches
`ErrorCodeInsufficientBalance` and changes neither the stored account nor
the put log; with `amount <= balance` it stores the account with balance
`balance - amount` in both the account cache and the store (one put issued). -/
theorem C5_theorem (s t : SM) (A B : Address) (acc acd : Account) (am1 am2 : Nat)
    (h1 : s.shared.accountCache A = some (Account.Marshal acc))
    (h2 : acc.address = A)
    (h3 : s.error = none)
    (h6 : acc.balance < am1)
    (k1 : t.shared.accountCache B = some (Account.Marshal acd))
    (k2 : acd.address = B)
    (k3 : t.error = none)
    (k6 : am2 ≤ acd.balance)
    (k7 : t.shared.ledger.failPut B = false) :
    ((s.SubtractFromBalance A am1).error = some ErrCode.insufficientBalance
      ∧ (s.SubtractFromBalance A am1).shared.accountCache A = some (Account.Marshal acc)
      ∧ (s.SubtractFromBalance A am1).shared.ledger.putLog = s.shared.ledger.putLog)
    ∧ ((t.SubtractFromBalance B am2).error = none
      ∧ (t.SubtractFromBalance B am2).shared.accountCache B
          = some (Account.Marshal { acd with balance := acd.balance - am2 })
      ∧ (t.SubtractFromBalance B am2).shared.ledger.putLog
          = t.shared.ledger.putLog
              ++ [(B, Account.Marshal { acd with balance := acd.balance - am2 })]
      ∧ (t.SubtractFromBalance B am2).shared.ledger.writeSet B
          = some (Account.Marshal { acd with balance := acd.balance - am2 })) := by
  constructor
  · have hm := mustAccount_cached s A acc h1
    unfold SM.SubtractFromBalance
    rw [hm]
    dsimp only
    rw [if_pos h6]
    simp [pushError_none s ErrCode.insufficientBalance h3, h1]
  · have hm := mustAccount_cached t B acd k1
    unfold SM.SubtractFromBalance
    rw [hm]
    dsimp only
    rw [if_neg (by omega)]
    have hup := updateAccount_ok t { acd with balance := acd.balance - am2 }
      (by simpa [k2] using k7)
    simp [k2] at hup
    simp [hup, k2, k3]

/-- Witness for C5 at the concrete adapter (balance 10: subtracting 11
latches, subtracting 3 persists balance 7). -/
theorem C5_witness :
    ((wStateC4.SubtractFromBalance addrB 11).error = some ErrCode.insufficientBalance
      ∧ (wStateC4.SubtractFromBalance addrB 11).shared.accountCache addrB
          = some (Account.Marshal wAcctTen)
      ∧ (wStateC4.SubtractFromBalance addrB 11).shared.ledger.putLog
          = wStateC4.shared.ledger.putLog)
    ∧ ((wStateC4.SubtractFromBalance addrB 3).error = none
      ∧ (wStateC4.SubtractFromBalance addrB 3).shared.accountCache addrB
          = some (Account.Marshal { wAcctTen with balance := wAcctTen.balance - 3 })
      ∧ (wStateC4.SubtractFromBalance addrB 3).shared.ledger.putLog
          = wStateC4.shared.ledger.putLog
              ++ [(addrB, Account.Marshal { wAcctTen with balance := wAcctTen.balance - 3 })]
      ∧ (wStateC4.SubtractFromBalance addrB 3).shared.ledger.writeSet addrB
          = some (Account.Marshal { wAcctTen with balance := wAcctTen.balance - 3 })) :=
  C5_theorem wStateC4 wStateC4 addrB addrB wAcctTen wAcctTen 11 3
    rfl rfl rfl (by decide) rfl rfl rfl (by decide) rfl

/-! Claim C6. -/

/-- Claim C6: with a succeeding store, `SetStorage(A, K, V1)` followed by
`GetStorage(A, K)` on the same adapter returns V1 from the storage cache
without touching the store again (the whole adapter state is unchanged by
the read), and a subsequent `SetStorage(A, K, V2)` followed by
`GetStorage(A, K)` returns V2. -/
theorem C6_theorem (s : SM) (A : Address) (K V1 V2 : Word256)
    (hput : s.shared.ledger.failPut (compositeKey A K) = false) :
    ((s.SetStorage A K V1).GetStorage A K).1 = V1
    ∧ ((s.SetStorage A K V1).GetStorage A K).2 = s.SetStorage A K V1
    ∧ ((((s.SetStorage A K V1).GetStorage A K).2.SetStorage A K V2).GetStorage A K).1
        = V2 := by
  have h1 := setStorage_ok s A K V1 hput
  have hc1 : (s.SetStorage A K V1).shared.storageCache (compositeKey A K) = some V1 := by
    rw [h1]; simp
  have hg1 := getStorage_hit (s.SetStorage A K V1) A K V1 hc1
  have hput2 : (s.SetStorage A K V1).shared.ledger.failPut (compositeKey A K) = false := by
    rw [h1]; exact hput
  have hc2 : ((s.SetStorage A K V1).SetStorage A K V2).shared.storageCache
      (compositeKey A K) = some V2 := by
    rw [setStorage_ok (s.SetStorage A K V1) A K V2 hput2]; simp
  have hg2 := getStorage_hit ((s.SetStorage A K V1).SetStorage A K V2) A K V2 hc2
  refine ⟨by rw [hg1], by rw [hg1], ?_⟩
  rw [hg1]
  simp only []
  rw [hg2]

/-- Witness for C6 at a concrete fresh adapter. -/
theorem C6_witness :
    ((cexPreC2.SetStorage addrA keyZ valOne).GetStorage addrA keyZ).1 = valOne
    ∧ ((cexPreC2.SetStorage addrA keyZ valOne).GetStorage addrA keyZ).2
        = cexPreC2.SetStorage addrA keyZ valOne
    ∧ ((((cexPreC2.SetStorage addrA keyZ valOne).GetStorage addrA keyZ).2.SetStorage
          addrA keyZ valTwo).GetStorage addrA keyZ).1 = valTwo :=
  C6_theorem cexPreC2 addrA keyZ valOne valTwo rfl

/-! Claim C7. -/

/-- InitCode on a cached account with empty code reduces to persisting the
account with the new code. -/
theorem initCode_empty_eq (s1 : SM) (A : Address) (acc1 : Account) (Cc : Bytes)
    (hc : s1.shared.accountCache A = some (Account.Marshal acc1))
    (hempty : acc1.code = []) :
    s1.InitCode A Cc = s1.updateAccount { acc1 with code := Cc } := by
  have hm := mustAccount_cached s1 A acc1 hc
  unfold SM.InitCode
  rw [hm]
  dsimp only
  rw [if_neg (by simp [hempty])]

/-- InitCode on a cached account with non-empty code latches
`ErrorCodeIllegalWrite` and does nothing else. -/
theorem initCode_nonempty_eq (s1 : SM) (A : Address) (acc1 : Account) (Cc : Bytes)
    (hc : s1.shared.accountCache A = some (Account.Marshal acc1))
    (hlen : acc1.code ≠ []) :
    s1.InitCode A Cc = s1.PushError ErrCode.illegalWrite := by
  have hm := mustAccount_cached s1 A acc1 hc
  unfold SM.InitCode
  rw [hm]
  dsimp only
  rw [if_pos (by simpa using List.length_pos.mpr hlen)]

/-- Claim C7: on an existing cached account with empty code and no latched
error, `InitCode(A, C)` with non-empty C succeeds and persists the account
with code C (one put issued); a second `InitCode(A, C2)` then latches
`ErrorCodeIllegalWrite` and changes nothing — the stored code remains C. -/
theorem C7_theorem (s : SM) (A : Address) (acc : Account) (C C2code : Bytes)
    (h1 : s.shared.accountCache A = some (Account.Marshal acc))
    (h2 : acc.address = A)
    (h3 : s.error = none)
    (h4 : acc.code = [])
    (h5 : C ≠ [])
    (h6 : s.shared.ledger.failPut A = false) :
    (s.InitCode A C).error = none
    ∧ (s.InitCode A C).shared.accountCache A
        = some (Account.Marshal { acc with code := C })
    ∧ (s.InitCode A C).shared.ledger.putLog
        = s.shared.ledger.putLog ++ [(A, Account.Marshal { acc with code := C })]
    ∧ ((s.InitCode A C).InitCode A C2code).error = some ErrCode.illegalWrite
    ∧ ((s.InitCode A C).InitCode A C2code).shared.accountCache A
        = some (Account.Marshal { acc with code := C })
    ∧ ((s.InitCode A C).InitCode A C2code).shared.ledger.putLog
        = (s.InitCode A C).shared.ledger.putLog := by
  have hm := mustAccount_cached s A acc h1
  have hup := updateAccount_ok s { acc with code := C } (by simpa [h2] using h6)
  have heq : s.InitCode A C = s.updateAccount { acc with code := C } :=
    initCode_empty_eq s A acc C h1 h4
  have herr1 : (s.InitCode A C).error = none := by rw [heq, hup]; exact h3
  have hcache1 : (s.InitCode A C).shared.accountCache A
      = some (Account.Marshal { acc with code := C }) := by
    rw [heq, hup]; simp [h2]
  have hput1 : (s.InitCode A C).shared.ledger.putLog
      = s.shared.ledger.putLog ++ [(A, Account.Marshal { acc with code := C })] := by
    rw [heq, hup]; simp [h2]
  have heq2 : (s.InitCode A C).InitCode A C2code
      = (s.InitCode A C).PushError ErrCode.illegalWrite :=
    initCode_nonempty_eq (s.InitCode A C) A { acc with code := C } C2code hcache1
      (by simpa using h5)
  have hpe := pushError_none (s.InitCode A C) ErrCode.illegalWrite herr1
  refine ⟨herr1, hcache1, hput1, ?_, ?_, ?_⟩
  · rw [heq2, hpe]
  · rw [heq2, hpe]; exact hcache1
  · rw [heq2, hpe]

/-- Witness for C7 at the concrete adapter. -/
theorem C7_witness :
    (wStateC4.InitCode addrA [9]).error = none
    ∧ (wStateC4.InitCode addrA [9]).shared.accountCache addrA
        = some (Account.Marshal { wAcctMax with code := [9] })
    ∧ (wStateC4.InitCode addrA [9]).shared.ledger.putLog
        = wStateC4.shared.ledger.putLog
            ++ [(addrA, Account.Marshal { wAcctMax with code := [9] })]
    ∧ ((wStateC4.InitCode addrA [9]).InitCode addrA [8]).error = some ErrCode.illegalWrite
    ∧ ((wStateC4.InitCode addrA [9]).InitCode addrA [8]).shared.accountCache addrA
        = some (Account.Marshal { wAcctMax with code := [9] })
    ∧ ((wStateC4.InitCode addrA [9]).InitCode addrA [8]).shared.ledger.putLog
        = (wStateC4.InitCode addrA [9]).shared.ledger.putLog :=
  C7_theorem wStateC4 addrA wAcctMax [9] [8] rfl rfl rfl rfl (by decide) rfl

/-! Claim C8. -/

/-- Claim C8: `CreateAccount` on an address whose account already exists (in
the account cache) latches `ErrorCodeDuplicateAddress` and writes nothing —
account cache, put log, delete log and write set are all unchanged; on an
absent address it persists a fresh account with zero balance, empty code,
zero sequence and exactly the default contract permission set (the Call and
Send capability bits, no roles) to both the account cache and the store. -/
theorem C8_theorem (s t : SM) (A B : Address) (acd : Account)
    (h1 : s.shared.accountCache A = none)
    (h2 : s.shared.ledger.failGet A = false)
    (h3 : s.shared.ledger.readData A = [])
    (h4 : s.error = none)
    (h5 : s.shared.ledger.failPut A = false)
    (k1 : t.shared.accountCache B = some (Account.Marshal acd))
    (k2 : t.error = none) :
    ((s.CreateAccount A).error = none
      ∧ (s.CreateAccount A).shared.accountCache A
          = some (Account.Marshal { address := A, balance := 0, code := [], sequence := 0, permissions := ContractPerms })
      ∧ (s.CreateAccount A).shared.ledger.putLog
          = s.shared.ledger.putLog
              ++ [(A, Account.Marshal { address := A, balance := 0, code := [], sequence := 0, permissions := ContractPerms })]
      ∧ (s.CreateAccount A).shared.ledger.writeSet A
          = some (Account.Marshal { address := A, balance := 0, code := [], sequence := 0, permissions := ContractPerms }))
    ∧ ((t.CreateAccount B).error = some ErrCode.duplicateAddress
      ∧ (t.CreateAccount B).shared.accountCache = t.shared.accountCache
      ∧ (t.CreateAccount B).shared.ledger.putLog = t.shared.ledger.putLog
      ∧ (t.CreateAccount B).shared.ledger.delLog = t.shared.ledger.delLog
      ∧ (t.CreateAccount B).shared.ledger.writeSet = t.shared.ledger.writeSet)
    ∧ ContractPerms.base.perms = (permCall ||| permSend)
    ∧ ContractPerms.base.setBit = (permCall ||| permSend)
    ∧ ContractPerms.roles = [] := by
  refine ⟨?_, ?_, rfl, rfl, rfl⟩
  · have hex := exists_absent s A h1 h2 h3
    have hup := updateAccount_ok (s.logGet A)
      { address := A, balance := 0, code := [], sequence := 0, permissions := ContractPerms }
      (by simpa [SM.logGet] using h5)
    unfold SM.CreateAccount
    rw [hex]
    dsimp only
    rw [hup]
    refine ⟨by simpa [SM.logGet] using h4, by simp, by simp [SM.logGet], by simp⟩
  · have hex := exists_cached t B acd k1
    have hga := getAccount_cached t B acd k1
    unfold SM.CreateAccount
    rw [hex]
    dsimp only
    rw [hga]
    dsimp only
    rw [pushError_none t ErrCode.duplicateAddress k2]
    exact ⟨rfl, rfl, rfl, rfl, rfl⟩

/-- Witness for C8: creation at an absent address on a fresh adapter, and
attempted duplicate creation at a cached account. -/
theorem C8_witness :
    ((cexPreC2.CreateAccount addrB).error = none
      ∧ (cexPreC2.CreateAccount addrB).shared.accountCache addrB
          = some (Account.Marshal { address := addrB, balance := 0, code := [], sequence := 0, permissions := ContractPerms })
      ∧ (cexPreC2.CreateAccount addrB).shared.ledger.putLog
          = cexPreC2.shared.ledger.putLog
              ++ [(addrB, Account.Marshal { address := addrB, balance := 0, code := [], sequence := 0, permissions := ContractPerms })]
      ∧ (cexPreC2.CreateAccount addrB).shared.ledger.writeSet addrB
          = some (Account.Marshal { address := addrB, balance := 0, code := [], sequence := 0, permissions := ContractPerms }))
    ∧ ((wStateC4.CreateAccount addrA).error = some ErrCode.duplicateAddress
      ∧ (wStateC4.CreateAccount addrA).shared.accountCache = wStateC4.shared.accountCache
      ∧ (wStateC4.CreateAccount addrA).shared.ledger.putLog = wStateC4.shared.ledger.putLog
      ∧ (wStateC4.CreateAccount addrA).shared.ledger.delLog = wStateC4.shared.ledger.delLog
      ∧ (wStateC4.CreateAccount addrA).shared.ledger.writeSet = wStateC4.shared.ledger.writeSet)
    ∧ ContractPerms.base.perms = (permCall ||| permSend)
    ∧ ContractPerms.base.setBit = (permCall ||| permSend)
    ∧ ContractPerms.roles = [] :=
  C8_theorem cexPreC2 wStateC4 addrB addrA wAcctMax rfl rfl (by decide) rfl rfl rfl rfl

/-! Claim C9. -/

/-- Claim C9: at an address with no account (cache miss and the store
returning absent, reads succeeding), `Exists` is false and `GetBalance`,
`GetCode`, `GetSequence` return the zero value of their type, and none of
these calls latches an error. -/
theorem C9_theorem (s : SM) (A : Address)
    (h1 : s.shared.accountCache A = none)
    (h2 : s.shared.ledger.failGet A = false)
    (h3 : s.shared.ledger.readData A = [])
    (h4 : s.error = none) :
    (s.Exists A).1 = false ∧ (s.Exists A).2.error = none
    ∧ (s.GetBalance A).1 = 0 ∧ (s.GetBalance A).2.error = none
    ∧ (s.GetCode A).1 = [] ∧ (s.GetCode A).2.error = none
    ∧ (s.GetSequence A).1 = 0 ∧ (s.GetSequence A).2.error = none := by
  have hex := exists_absent s A h1 h2 h3
  have hac := account_absent s A h1 h2 h3
  refine ⟨by rw [hex], by rw [hex]; simpa [SM.logGet] using h4, ?_, ?_, ?_, ?_, ?_, ?_⟩
  · unfold SM.GetBalance; rw [hac]
  · unfold SM.GetBalance; rw [hac]; simpa [SM.logGet] using h4
  · unfold SM.GetCode; rw [hac]
  · unfold SM.GetCode; rw [hac]; simpa [SM.logGet] using h4
  · unfold SM.GetSequence; rw [hac]
  · unfold SM.GetSequence; rw [hac]; simpa [SM.logGet] using h4

/-- Witness for C9 at a concrete fresh adapter. -/
theorem C9_witness :
    (cexPreC2.Exists addrB).1 = false ∧ (cexPreC2.Exists addrB).2.error = none
    ∧ (cexPreC2.GetBalance addrB).1 = 0 ∧ (cexPreC2.GetBalance addrB).2.error = none
    ∧ (cexPreC2.GetCode addrB).1 = [] ∧ (cexPreC2.GetCode addrB).2.error = none
    ∧ (cexPreC2.GetSequence addrB).1 = 0
    ∧ (cexPreC2.GetSequence addrB).2.error = none :=
  C9_theorem cexPreC2 addrB rfl rfl (by decide) rfl

/-! Claim C10. -/

/-- Claim C10: a view produced by `NewCache` shares the parent's reference
state (stub and both cache maps) and starts with a fresh nil latched error.
Because parent and view alias the same `Shared` value, a storage or account
write through either one is visible to a read through the other (the
reassembled parent is the parent struct with the aliased shared state after
the view's operation, which is exactly what the Go map references provide),
while the latched error is a per-struct value field: latching on the view
leaves the parent's `Error()` unchanged, and latching on the parent leaves
the view's `Error()` nil. -/
theorem C10_theorem (p : SM) (opts : List CacheOption) (A Ac : Address) (K V : Word256)
    (e : ErrCode)
    (hput : p.shared.ledger.failPut (compositeKey A K) = false)
    (c1 : p.shared.accountCache Ac = none)
    (c2 : p.shared.ledger.failGet Ac = false)
    (c3 : p.shared.ledger.readData Ac = [])
    (c5 : p.shared.ledger.failPut Ac = false) :
    (p.NewCache opts).shared = p.shared
    ∧ (p.NewCache opts).Error = none
    ∧ (({ p with shared := ((p.NewCache opts).SetStorage A K V).shared } : SM).GetStorage A K).1 = V
    ∧ (({ p.NewCache opts with shared := (p.SetStorage A K V).shared } : SM).GetStorage A K).1 = V
    ∧ (({ p with shared := ((p.NewCache opts).CreateAccount Ac).shared } : SM).Exists Ac).1 = true
    ∧ ((p.NewCache opts).PushError e).Error = some e
    ∧ ({ p with shared := ((p.NewCache opts).PushError e).shared } : SM).Error = p.Error
    ∧ ({ p.NewCache opts with shared := (p.PushError e).shared } : SM).Error = none := by
  have hcache1 : ((p.NewCache opts).SetStorage A K V).shared.storageCache (compositeKey A K)
      = some V := by
    rw [setStorage_ok (p.NewCache opts) A K V hput]; simp
  have hcache2 : (p.SetStorage A K V).shared.storageCache (compositeKey A K) = some V := by
    rw [setStorage_ok p A K V hput]; simp
  have hex := exists_absent (p.NewCache opts) Ac c1 c2 c3
  have hup := updateAccount_ok ((p.NewCache opts).logGet Ac)
    { address := Ac, balance := 0, code := [], sequence := 0, permissions := ContractPerms }
    (by simpa [SM.logGet] using c5)
  have hv2 : ((p.NewCache opts).CreateAccount Ac).shared.accountCache Ac
      = some (Account.Marshal { address := Ac, balance := 0, code := [], sequence := 0, permissions := ContractPerms }) := by
    unfold SM.CreateAccount
    rw [hex]
    dsimp only
    rw [hup]
    simp
  refine ⟨rfl, rfl, ?_, ?_, ?_, ?_, rfl, rfl⟩
  · rw [getStorage_hit ({ p with shared := ((p.NewCache opts).SetStorage A K V).shared } : SM)
      A K V hcache1]
  · rw [getStorage_hit ({ p.NewCache opts with shared := (p.SetStorage A K V).shared } : SM)
      A K V hcache2]
  · rw [exists_cached ({ p with shared := ((p.NewCache opts).CreateAccount Ac).shared } : SM)
      Ac _ hv2]
  · simp [SM.Error, pushError_none (p.NewCache opts) e rfl]

/-- Witness for C10 at a concrete fresh adapter. -/
theorem C10_witness :
    (cexPreC2.NewCache [CacheOption.readOnly]).shared = cexPreC2.shared
    ∧ (cexPreC2.NewCache [CacheOption.readOnly]).Error = none
    ∧ (({ cexPreC2 with shared := ((cexPreC2.NewCache [CacheOption.readOnly]).SetStorage addrA keyZ valOne).shared } : SM).GetStorage addrA keyZ).1 = valOne
    ∧ (({ cexPreC2.NewCache [CacheOption.readOnly] with shared := (cexPreC2.SetStorage addrA keyZ valOne).shared } : SM).GetStorage addrA keyZ).1 = valOne
    ∧ (({ cexPreC2 with shared := ((cexPreC2.NewCache [CacheOption.readOnly]).CreateAccount addrB).shared } : SM).Exists addrB).1 = true
    ∧ ((cexPreC2.NewCache [CacheOption.readOnly]).PushError ErrCode.ioError).Error
        = some ErrCode.ioError
    ∧ ({ cexPreC2 with shared := ((cexPreC2.NewCache [CacheOption.readOnly]).PushError ErrCode.ioError).shared } : SM).Error = cexPreC2.Error
    ∧ ({ cexPreC2.NewCache [CacheOption.readOnly] with shared := (cexPreC2.PushError ErrCode.ioError).shared } : SM).Error = none :=
  C10_theorem cexPreC2 [CacheOption.readOnly] addrA addrB keyZ valOne ErrCode.ioError
    rfl rfl rfl (by decide) rfl
